import Mathlib

/-!
Verification development for the photoframe removable-storage photo source
subsystem (src/services/svc_usb.py and src/modules/settings.py).

The Python code is shallowly embedded: external effects (filesystem contents,
wall-clock time, random draws, subprocess outcomes, the persisted settings
file) are explicit parameters, and the mutable object state
(directory cache, keyword state, active device) is threaded explicitly.
Machine floats of the source are modelled by exact numbers: rationals where the
code only parses, stores and compares configuration values and timestamps, and
real numbers where the selection algorithm applies exp and real powers.
-/

namespace Photoframe

/-! ### Configuration values (src/modules/settings.py)

A configuration value as found in the JSON settings file: a number, a string,
or JSON null (Python None). -/

inductive ConfigVal where
  | num (q : ℚ)
  | str (s : String)
  | null
deriving DecidableEq

/-- Numeric value of a list of decimal digit characters, most significant first. -/
def digitsVal (l : List Char) : ℕ :=
  l.foldl (fun a c => a * 10 + (c.toNat - 48)) 0

/-- Model of Python float(s) on a string: optional sign, an integer part and an
optional fractional part, at least one digit overall.  (Exponents, inf/nan and
surrounding whitespace, which Python also accepts, are outside the model;
the claims only need that numeric strings parse and non-numeric ones do not.)
Returns none where Python raises ValueError. -/
def pyParseFloat (s : String) : Option ℚ :=
  let cs := s.toList
  let signRest : ℚ × List Char :=
    match cs with
    | '-' :: r => (-1, r)
    | '+' :: r => (1, r)
    | r => (1, r)
  let sign := signRest.1
  let rest := signRest.2
  let intPart := rest.takeWhile Char.isDigit
  let rest2 := rest.dropWhile Char.isDigit
  match rest2 with
  | [] =>
    if intPart.isEmpty then none
    else some (sign * (digitsVal intPart : ℚ))
  | '.' :: frac =>
    if frac.all Char.isDigit && !(intPart.isEmpty && frac.isEmpty) then
      some (sign * ((digitsVal intPart : ℚ) + (digitsVal frac : ℚ) / (10 : ℚ) ^ frac.length))
    else none
  | _ => none

/-- Model of Python float(x) on a configuration value: numbers convert,
numeric strings parse, non-numeric strings raise ValueError and None raises
TypeError (both modelled as Except.error). -/
def pyFloat : ConfigVal → Except String ℚ
  | .num q => .ok q
  | .str s =>
    match pyParseFloat s with
    | some q => .ok q
    | none => .error ("ValueError")
  | .null => .error ("TypeError")

/-- settings.convertToNative: a string that parses as a number becomes that
number ('.' selects float, otherwise int; both are covered by pyParseFloat);
anything else is returned unchanged (the bare except swallows the
TypeError/ValueError). -/
def convertToNative (v : ConfigVal) : ConfigVal :=
  match v with
  | .str s =>
    match pyParseFloat s with
    | some q => .num q
    | none => .str s
  | x => x

/-- A user configuration: association list from keys to values, as the
settings dictionary holds it. -/
abbrev Cfg := List (String × ConfigVal)

/-- Dictionary assignment d[k] = v on an association list: replace the value
at an existing key, otherwise append the binding. -/
def setA (l : Cfg) (k : String) (v : ConfigVal) : Cfg :=
  if l.any (fun p => p.1 == k) then
    l.map (fun p => if p.1 == k then (k, v) else p)
  else l ++ [(k, v)]

/-- Dictionary pop d.pop(k, None): drop the binding for k. -/
def removeA (l : Cfg) (k : String) : Cfg :=
  l.filter (fun p => p.1 != k)

/-- settings.userDefaults: the built-in user configuration, including the
decay_factor default 0.003. -/
def userDefaults : Cfg :=
  [ ("width", .num 1920),
    ("height", .num 1080),
    ("depth", .num 32),
    ("tvservice", .str ("DMT 82 DVI")),
    ("timezone", .str ("")),
    ("interval", .num 60),
    ("display-off", .num 22),
    ("display-on", .num 4),
    ("refresh", .num 0),
    ("autooff-lux", .num (1/100)),
    ("autooff-time", .num 0),
    ("powersave", .str ("")),
    ("shutdown-pin", .num 3),
    ("display-driver", .str ("none")),
    ("display-special", .null),
    ("imagesizing", .str ("blur")),
    ("force_orientation", .num 0),
    ("randomize_images", .num 1),
    ("enable-cache", .num 1),
    ("offline-behavior", .str ("wait")),
    ("decay_factor", .num (3/1000)) ]

/-- Python dict.update(fc) over an association list base. -/
def mergeUpdate (base fc : Cfg) : Cfg :=
  fc.foldl (fun acc p => setA acc p.1 p.2) base

/-- settings.load restricted to the user configuration section: with no
settings file the constructor defaults stay; with a file, the defaults are
updated by the file values, the legacy refresh-content key is renamed to
refresh, deprecated keys are dropped, and every value is passed through
convertToNative.  (The tvservice reordering fixup and the top-level
cachefolder key do not touch the user configuration values modelled here.) -/
def loadCfg : Option Cfg → Cfg
  | none => userDefaults
  | some fc =>
    let m := mergeUpdate userDefaults fc
    let m :=
      match m.lookup ("refresh-content") with
      | some rv => setA (removeA m ("refresh-content")) ("refresh") rv
      | none => m
    let m := removeA m ("resolution")
    m.map (fun p => (p.1, convertToNative p.2))

/-- settings.getUser(key): the value stored for the key, None when the key is
absent (the logging stunt around the 1/0 is swallowed by its own except). -/
def getUser (cfg : Cfg) (k : String) : Option ConfigVal :=
  cfg.lookup k

/-- The decay-factor computation of USB_Photos.weighted_random_selection:
raw_decay is what settings.getUser returned (none models both a missing key
and a stored JSON null, which Python both hands over as None);
0.0005 when it is None, float(raw_decay) otherwise, with TypeError and
ValueError caught and replaced by 0.0005. -/
def decayFactorOf (raw : Option ConfigVal) : ℚ :=
  match raw with
  | none => 1/2000
  | some .null => 1/2000
  | some v =>
    match pyFloat v with
    | .ok q => q
    | .error _ => 1/2000

/-- The decay factor the selection uses for a given settings file: load the
settings, read the user key decay_factor, apply the fallback. -/
def decayFromSettings (fileCfg : Option Cfg) : ℚ :=
  decayFactorOf (getUser (loadCfg fileCfg) ("decay_factor"))

/-! ### random.sample model

random.sample(population, k) draws k elements without replacement: each step
picks one remaining element (the choice driven by the abstract source pick)
and removes it from the pool. -/

def randomSample {α : Type} (pick : ℕ → ℕ) : ℕ → List α → List α
  | 0, _ => []
  | _ + 1, [] => []
  | k + 1, a :: as =>
    (a :: as).getD (pick k % (a :: as).length) a ::
      randomSample pick k ((a :: as).eraseIdx (pick k % (a :: as).length))

lemma perm_getElem_cons_eraseIdx {α : Type} [DecidableEq α] (l : List α) (i : ℕ)
    (h : i < l.length) : l.Perm (l[i] :: l.eraseIdx i) :=
  (List.perm_cons_erase (l.getElem_mem h)).trans ((List.erase_getElem h).cons _)

lemma randomSample_subperm {α : Type} [DecidableEq α] (pick : ℕ → ℕ) :
    ∀ (k : ℕ) (l : List α), (randomSample pick k l).Subperm l := by
  intro k
  induction k with
  | zero => intro l; simp [randomSample]
  | succ k ih =>
    intro l
    match l with
    | [] => simp [randomSample]
    | a :: as =>
      rw [randomSample]
      have hlt : pick k % (a :: as).length < (a :: as).length := Nat.mod_lt _ (by simp)
      rw [List.getD_eq_getElem _ _ hlt]
      have htail := ih ((a :: as).eraseIdx (pick k % (a :: as).length))
      have hcons := (List.subperm_cons ((a :: as)[pick k % (a :: as).length])).mpr htail
      exact hcons.trans
        (List.Perm.subperm (perm_getElem_cons_eraseIdx (a :: as) _ hlt).symm)

lemma randomSample_length {α : Type} (pick : ℕ → ℕ) :
    ∀ (k : ℕ) (l : List α), (randomSample pick k l).length = min k l.length := by
  intro k
  induction k with
  | zero => intro l; simp [randomSample]
  | succ k ih =>
    intro l
    match l with
    | [] => simp [show randomSample pick (k + 1) ([] : List α) = [] from rfl]
    | a :: as =>
      rw [randomSample]
      simp only [List.length_cons, ih, List.length_eraseIdx]
      have hlt : pick k % (a :: as).length < (a :: as).length := Nat.mod_lt _ (by simp)
      rw [if_pos (by simpa using hlt)]
      omega

/-! ### SelectionEngine: USB_Photos.weighted_random_selection

The code draws one uniform number per item (random.random(), modelled by the
abstract sequence u), computes the Efraimidis-Spirakis key per item and keeps
the max_images items with largest key via heapq.nlargest.  heapq.nlargest is
documented as equivalent to a stable descending sort followed by take, which
is how it is modelled. -/

/-- Stable descending sort of keyed items by key, then take n:
heapq.nlargest(n, keyed, key=first component). -/
noncomputable def nlargestByKey (n : ℕ) (l : List (ℝ × String)) : List (ℝ × String) :=
  (l.mergeSort (fun a b => decide (b.1 ≤ a.1))).take n

/-- The per-rank weight with the numeric guard of the source:
w = exp(-i * decay_factor), replaced by 1e-12 if w <= 0 (dead for real
numbers, kept for faithfulness). -/
noncomputable def esGuardedWeight (decay : ℚ) (i : ℕ) : ℝ :=
  let w := Real.exp (-(i : ℝ) * (decay : ℝ))
  if w ≤ 0 then 1e-12 else w

/-- The selection key of one item: key = u ** (1.0 / w) with the guarded
weight. -/
noncomputable def esKey (decay : ℚ) (u : ℕ → ℝ) (i : ℕ) : ℝ :=
  (u i) ^ (1 / esGuardedWeight decay i)

/-- The keyed list the loop builds: one (key, file) pair per index. -/
noncomputable def esKeyedList (decay : ℚ) (u : ℕ → ℝ) (files : List String) :
    List (ℝ × String) :=
  files.enum.map (fun p => (esKey decay u p.1, p.2))

/-- USB_Photos.weighted_random_selection.  Parameters beyond the source's two
arguments make the externals explicit: fileCfg is the settings file read by
settings.load (none when absent), u the sequence of random.random() draws and
pick the randomness behind random.sample.  Everything else follows the source
line by line: full list when it fits, settings read and decay fallback,
uniform sample without replacement when decay_factor <= 0, otherwise
Efraimidis-Spirakis keys and nlargest. -/
noncomputable def weighted_random_selection (fileCfg : Option Cfg) (u : ℕ → ℝ)
    (pick : ℕ → ℕ) (files : List String) (max_images : ℕ) : List String :=
  if files.length ≤ max_images then files
  else
    let decay_factor := decayFromSettings fileCfg
    if decay_factor ≤ 0 then randomSample pick max_images files
    else (nlargestByKey max_images (esKeyedList decay_factor u files)).map Prod.snd

/-! Spec-side selection algorithm, written from the spec's words (section 4.4)
for the refinement claim C2: rank weight w_i = exp(-i * decayFactor), key
k_i = u_i ** (1 / w_i), return the maxCount items with largest key. -/

/-- Rank weight of the spec: w_i = exp(-i * decayFactor), no guard. -/
noncomputable def specRankWeight (decayFactor : ℚ) (i : ℕ) : ℝ :=
  Real.exp (-(i : ℝ) * (decayFactor : ℝ))

/-- Spec selection key: k_i = u_i ** (1 / w_i). -/
noncomputable def specESKey (decayFactor : ℚ) (u : ℕ → ℝ) (i : ℕ) : ℝ :=
  (u i) ^ (1 / specRankWeight decayFactor i)

/-- The spec's weighted sampling without replacement: the maxCount items with
largest key, over the pre-sorted input. -/
noncomputable def specESSelect (decayFactor : ℚ) (u : ℕ → ℝ) (files : List String)
    (maxCount : ℕ) : List String :=
  (nlargestByKey maxCount
    (files.enum.map (fun p => (specESKey decayFactor u p.1, p.2)))).map Prod.snd

lemma esGuardedWeight_eq_specRankWeight (decay : ℚ) (i : ℕ) :
    esGuardedWeight decay i = specRankWeight decay i := by
  unfold esGuardedWeight specRankWeight
  rw [if_neg (not_le.mpr (Real.exp_pos _))]

lemma esKeyedList_map_snd (decay : ℚ) (u : ℕ → ℝ) (files : List String) :
    (esKeyedList decay u files).map Prod.snd = files := by
  unfold esKeyedList
  rw [List.map_map]
  have : (Prod.snd ∘ fun p : ℕ × String => (esKey decay u p.1, p.2)) = Prod.snd := rfl
  rw [this, List.enum_map_snd]

lemma nlargestByKey_subperm (n : ℕ) (l : List (ℝ × String)) :
    ((nlargestByKey n l).map Prod.snd).Subperm (l.map Prod.snd) := by
  unfold nlargestByKey
  have h1 : (nlargestByKey n l).Sublist (l.mergeSort (fun a b => decide (b.1 ≤ a.1))) :=
    List.take_sublist _ _
  have h2 := (List.take_sublist n (l.mergeSort (fun a b => decide (b.1 ≤ a.1)))).map Prod.snd
  have h3 := (List.mergeSort_perm l (fun a b => decide (b.1 ≤ a.1))).map Prod.snd
  exact (List.Sublist.subperm h2).trans (List.Perm.subperm h3)

lemma nlargestByKey_length (n : ℕ) (l : List (ℝ × String)) :
    (nlargestByKey n l).length = min n l.length := by
  unfold nlargestByKey
  rw [List.length_take, List.length_mergeSort]

lemma esKeyedList_length (decay : ℚ) (u : ℕ → ℝ) (files : List String) :
    (esKeyedList decay u files).length = files.length := by
  unfold esKeyedList
  rw [List.length_map, List.enum_length]

/-- A subpermutation of a duplicate-free list is duplicate-free. -/
lemma subperm_nodup {α : Type} {l₁ l₂ : List α} (h : l₁.Subperm l₂)
    (hd : l₂.Nodup) : l₁.Nodup := by
  obtain ⟨l, hperm, hsub⟩ := h
  exact hperm.nodup (hsub.nodup hd)

/-- The selection always returns exactly min(max_images, number of files)
entries, drawn without replacement from the input. -/
lemma weighted_random_selection_length_subperm (fileCfg : Option Cfg) (u : ℕ → ℝ)
    (pick : ℕ → ℕ) (files : List String) (max_images : ℕ) :
    (weighted_random_selection fileCfg u pick files max_images).length =
      min max_images files.length ∧
    (weighted_random_selection fileCfg u pick files max_images).Subperm files := by
  unfold weighted_random_selection
  by_cases hfit : files.length ≤ max_images
  · rw [if_pos hfit]
    exact ⟨by omega, List.Subperm.refl _⟩
  · rw [if_neg hfit]
    by_cases hdecay : decayFromSettings fileCfg ≤ 0
    · simp only [if_pos hdecay]
      exact ⟨randomSample_length pick max_images files, randomSample_subperm pick _ _⟩
    · simp only [if_neg hdecay]
      constructor
      · rw [List.length_map, nlargestByKey_length, esKeyedList_length]
      · have := nlargestByKey_subperm max_images (esKeyedList (decayFromSettings fileCfg) u files)
        rwa [esKeyedList_map_snd] at this

/-! ### DirectoryCache (USB_Photos._is_cache_valid / _cache_directory_scan)

Wall-clock time is modelled as seconds since an epoch aligned with local
midnight, so datetime.date boundaries fall at multiples of 86400 seconds and
03:00 is offset 10800.  Modification times are naturals compared only for
equality. -/

/-- One value of the _cache_timestamps dictionary: creation wall-clock time
and the directory mtime recorded at scan time. -/
structure CacheInfo where
  created : ℕ
  dir_mtime : ℕ
deriving DecidableEq

/-- Seconds in a day. -/
def secPerDay : ℕ := 86400

/-- The cutoff the code computes: datetime.combine(cache_date + 1 day,
time(3, 0, 0)), i.e. 03:00 of the day after the creation date. -/
def next_day_3am (created : ℕ) : ℕ :=
  (created / secPerDay + 1) * secPerDay + 3 * 3600

/-- USB_Photos._is_cache_valid for one path: false when no timestamp is
recorded; else false when now has reached the 3am cutoff; else false when the
current directory mtime differs from the recorded one; else true. -/
def is_cache_valid (stamp : Option CacheInfo) (now : ℕ) (current_mtime : ℕ) : Bool :=
  match stamp with
  | none => false
  | some info =>
    if next_day_3am info.created ≤ now then false
    else if current_mtime ≠ info.dir_mtime then false
    else true

/-- Kind of a directory entry as scandir reports it. -/
inductive EntryKind where
  | file
  | dir
  | other
deriving DecidableEq

/-- One scandir entry: name, kind, stat().st_mtime. -/
structure DirEntry where
  name : String
  kind : EntryKind
  mtime : ℕ
deriving DecidableEq

/-- A directory as the filesystem presents it: its own mtime, its entries, and
whether scandir succeeds on it (false models the OSError branch). -/
structure DirState where
  mtime : ℕ
  entries : List DirEntry
  readable : Bool
deriving DecidableEq

/-- The filesystem: the directory behind a path, none when the path does not
exist. -/
def FS : Type := String → Option DirState

/-- The cache state of the service object: the _dir_cache and
_cache_timestamps dictionaries, keyed by path. -/
structure ScanCache where
  dirCache : List (String × (List (ℕ × String) × List (ℕ × String)))
  stamps : List (String × CacheInfo)
deriving DecidableEq

/-- The empty cache (also the result of invalidate_cache). -/
def emptyCache : ScanCache := ⟨[], []⟩

/-- Python str.startswith(".") on the entry name. -/
def isHidden (s : String) : Bool :=
  match s.toList with
  | c :: _ => c == '.'
  | [] => false

/-- Stable descending sort by modification time:
list.sort(key=lambda x: x[0], reverse=True). -/
def sortByMtimeDesc (l : List (ℕ × String)) : List (ℕ × String) :=
  l.mergeSort (fun a b => decide (b.1 ≤ a.1))

/-- The fresh scan body: walk scandir entries, skip dot-prefixed names,
collect (mtime, name) for files and directories, sort each newest first. -/
def freshScan (d : DirState) : List (ℕ × String) × List (ℕ × String) :=
  let visible := d.entries.filter (fun e => !(isHidden e.name))
  (sortByMtimeDesc ((visible.filter (fun e => e.kind = EntryKind.file)).map
      (fun e => (e.mtime, e.name))),
   sortByMtimeDesc ((visible.filter (fun e => e.kind = EntryKind.dir)).map
      (fun e => (e.mtime, e.name))))

/-- Dictionary assignment for the cache maps. -/
def setStamp (c : ScanCache) (path : String) (info : CacheInfo)
    (r : List (ℕ × String) × List (ℕ × String)) : ScanCache :=
  { dirCache := (path, r) :: c.dirCache.filter (fun p => p.1 != path),
    stamps := (path, info) :: c.stamps.filter (fun p => p.1 != path) }

/-- USB_Photos._cache_directory_scan.  Besides the scan result and the new
cache state, the third component records whether an underlying filesystem
scandir read was performed (false on the nonexistent-path and cache-hit
paths).  A nonexistent path returns two empty sequences without touching the
cache; a valid cache entry is returned as is; otherwise a fresh scan replaces
the entry, except that a scandir failure returns two empty sequences without
caching. -/
def cache_directory_scan (fs : FS) (now : ℕ) (c : ScanCache) (path : String) :
    (List (ℕ × String) × List (ℕ × String)) × ScanCache × Bool :=
  match fs path with
  | none => (([], []), c, false)
  | some d =>
    let current_mtime := d.mtime
    match
      if is_cache_valid (c.stamps.lookup path) now current_mtime then
        c.dirCache.lookup path
      else none
    with
    | some r => (r, c, false)
    | none =>
      if d.readable then
        let r := freshScan d
        (r, setStamp c path ⟨now, current_mtime⟩ r, true)
      else (([], []), c, true)

lemma lookup_setStamp_dirCache (c : ScanCache) (path : String) (info : CacheInfo)
    (r : List (ℕ × String) × List (ℕ × String)) :
    (setStamp c path info r).dirCache.lookup path = some r := by
  simp [setStamp, List.lookup]

lemma lookup_setStamp_stamps (c : ScanCache) (path : String) (info : CacheInfo)
    (r : List (ℕ × String) × List (ℕ × String)) :
    (setStamp c path info r).stamps.lookup path = some info := by
  simp [setStamp, List.lookup]

/-! ### KeywordRegistry (USB_Photos.getKeywords / checkForInvalidKeywords)

The stored keyword state _STATE['_KEYWORDS'] lives in BaseService, outside
src/; it is modelled as an explicit list of strings, saveState as returning
the new list.  The album names and base-directory image names that the code
reads through the directory cache are passed as explicit lists. -/

/-- USB_Photos.getKeywords.  Arguments: whether the photoframe base directory
exists, the current album (subdirectory) names, the image names directly in
the base directory, and the stored keyword list.  Returns the keyword list
handed to the caller together with the stored list after the call (the code
assigns the expanded list to _STATE['_KEYWORDS'] and calls saveState). -/
def getKeywords (baseDirExists : Bool) (albums baseImages stored : List String) :
    List String × List String :=
  if !baseDirExists then ([], stored)
  else
    let keywords := stored
    let keywords :=
      if ("ALLALBUMS") ∈ keywords then
        let keywords := keywords.erase ("ALLALBUMS")
        keywords ++ albums.filter (fun a => a ∉ keywords)
      else keywords
    let keywords :=
      if keywords = [] && !baseImages.isEmpty && ("_PHOTOFRAME_") ∉ keywords then
        keywords ++ [("_PHOTOFRAME_")]
      else keywords
    (keywords, keywords)

/-- USB_Photos.checkForInvalidKeywords.  The loop walks the stored keywords
from the last to the first and calls BaseService.removeKeywords(index) on each
offender.  Modelled from the spec: BaseService.removeKeywords is not under
src/; per the spec's reconcile() it prunes the stored keyword at that index,
so the right-to-left sweep is the filter keeping exactly the survivors:
"_PHOTOFRAME_" survives iff the base directory holds at least one direct
image, every other keyword survives iff it names a current album. -/
def checkForInvalidKeywords (albums baseImages stored : List String) : List String :=
  stored.filter (fun keyword =>
    if keyword = ("_PHOTOFRAME_") then !baseImages.isEmpty
    else decide (keyword ∈ albums))

/-! ### MountManager (USB_Photos.detectAllStorageDevices / mountStorageDevice /
unmountBaseDir / updateState)

Subprocess outcomes (udevadm, lsblk, mount, umount) are abstracted into a
world record: the candidate list that detectAllStorageDevices(onlyUnmounted=
True) returns (already sorted by descending freshness), and per-candidate
outcomes of the mount command and of the base-directory existence test after
a successful mount. -/

/-- USB_Photos.StorageUnit: one candidate partition. -/
structure StorageUnit where
  device : Option String
  uuid : Option String
  size : ℕ
  fs : Option String
  hotplug : Bool
  mountpoint : Option String
  freshness : ℕ
  label : Option String
deriving DecidableEq

/-- The external world one mountStorageDevice call sees. -/
structure MountWorld where
  candidates : List StorageUnit
  mountOk : ℕ → Bool
  baseDirAfter : ℕ → Bool
  umountOk : ℕ → Bool
  albums : List String
  baseImages : List String

/-- The mutable service state the mount path touches. -/
structure UsbState where
  device : Option StorageUnit
  cache : ScanCache
  keywords : List String
deriving DecidableEq

/-- USB_Photos.unmountBaseDir: try to umount; on success invalidate the
directory cache, on failure only log. -/
def unmountBaseDir (ok : Bool) (st : UsbState) : UsbState :=
  if ok then { st with cache := emptyCache } else st

/-- The candidate loop of USB_Photos.mountStorageDevice: mount each candidate
in order; when the mount command succeeds and the photoframe directory
appears, record the device, invalidate the cache and run the keyword sweep,
returning True; otherwise defensively unmount and try the next candidate;
False when the list is exhausted. -/
def mountAttempts (w : MountWorld) : List (ℕ × StorageUnit) → UsbState → Bool × UsbState
  | [], st => (false, st)
  | (i, cand) :: rest, st =>
    if w.mountOk i && w.baseDirAfter i then
      (true, { device := some cand,
               cache := emptyCache,
               keywords := checkForInvalidKeywords w.albums w.baseImages st.keywords })
    else mountAttempts w rest (unmountBaseDir (w.umountOk i) st)

/-- USB_Photos.mountStorageDevice (the mkdir of the mount root has no effect
on the modelled state). -/
def mountStorageDevice (w : MountWorld) (st : UsbState) : Bool × UsbState :=
  mountAttempts w w.candidates.enum st

/-- Modelled from the spec: the service state constants of BaseService (not
under src/).  noImages is BaseService.STATE_NO_IMAGES; other stands for every
other state BaseService.updateState can report. -/
inductive SvcState where
  | noImages
  | other
deriving DecidableEq

/-- USB_Photos.SUBSTATE_NOT_CONNECTED. -/
def SUBSTATE_NOT_CONNECTED : ℕ := 404

/-- USB_Photos.updateState.  baseDirExists is the os.path.exists(self.baseDir)
probe; baseUpdate abstracts the inherited BaseService.updateState result (not
under src/).  Returns ((current state, substate), new service state): the
substate is cleared first, a failed remount of a missing base directory
reports STATE_NO_IMAGES with the not-connected substate, an empty content
tree reports STATE_NO_IMAGES, otherwise the inherited result stands. -/
def updateState (w : MountWorld) (baseDirExists : Bool) (baseUpdate : SvcState)
    (st : UsbState) : (SvcState × Option ℕ) × UsbState :=
  let contentCheck : UsbState → (SvcState × Option ℕ) × UsbState := fun st' =>
    if w.albums.isEmpty && w.baseImages.isEmpty then ((SvcState.noImages, none), st')
    else ((baseUpdate, none), st')
  if !baseDirExists then
    let r := mountStorageDevice w st
    if !r.1 then ((SvcState.noImages, some SUBSTATE_NOT_CONNECTED), r.2)
    else contentCheck r.2
  else contentCheck st

/-! ## Claims -/

/-! ### C1: selection size, subset and duplicate-freedom -/

/-- C1, counterexample.  The claim asserts that for EVERY file list the
selection result has no duplicate entries.  On the duplicate-containing input
F = [a, a] with maxCount 5 the code takes the list-fits branch and returns
the list unchanged, so the result [a, a] has a duplicate entry while its
length is min(5, 2) = 2 as claimed. -/
theorem c1_duplicate_input_counterexample :
    weighted_random_selection none (fun _ => 1/2) (fun _ => 0) [("a"), ("a")] 5
        = [("a"), ("a")] ∧
    ¬ (weighted_random_selection none (fun _ => 1/2) (fun _ => 0) [("a"), ("a")] 5).Nodup := by
  have h : weighted_random_selection none (fun _ => 1/2) (fun _ => 0) [("a"), ("a")] 5
      = [("a"), ("a")] := by
    unfold weighted_random_selection
    simp
  refine ⟨h, ?_⟩
  rw [h]
  decide

/-- C1 (amended): for every file list F and every maxCount m, the selection
returns min(m, |F|) entries drawn from F without replacement; whenever F
itself has no duplicate entries the result has none, and for empty F the
result is empty for any m. -/
theorem c1_selection_size_subset_nodup (fileCfg : Option Cfg) (u : ℕ → ℝ)
    (pick : ℕ → ℕ) (files : List String) (max_images : ℕ) :
    (weighted_random_selection fileCfg u pick files max_images).length
        = min max_images files.length ∧
    (∀ x, x ∈ weighted_random_selection fileCfg u pick files max_images → x ∈ files) ∧
    (files.Nodup → (weighted_random_selection fileCfg u pick files max_images).Nodup) ∧
    (files = [] → weighted_random_selection fileCfg u pick files max_images = []) := by
  obtain ⟨hlen, hsub⟩ :=
    weighted_random_selection_length_subperm fileCfg u pick files max_images
  refine ⟨hlen, fun x hx => hsub.subset hx, fun hnd => subperm_nodup hsub hnd, fun hnil => ?_⟩
  rw [← List.length_eq_zero, hlen, hnil]
  simp

/-- C1 witness: the amended theorem applied at the concrete empty input. -/
theorem c1_selection_size_subset_nodup_witness :
    (weighted_random_selection none (fun _ => 1/2) (fun _ => 0) [] 5).Nodup ∧
    weighted_random_selection none (fun _ => 1/2) (fun _ => 0) [] 5 = [] := by
  refine ⟨?_, ?_⟩
  · exact (c1_selection_size_subset_nodup none (fun _ => 1/2) (fun _ => 0) [] 5).2.2.1
      (by decide)
  · exact (c1_selection_size_subset_nodup none (fun _ => 1/2) (fun _ => 0) [] 5).2.2.2 rfl

/-! ### C2: the selection algorithm refines the spec's sampling scheme -/

lemma esKey_eq_specESKey (decay : ℚ) (u : ℕ → ℝ) (i : ℕ) :
    esKey decay u i = specESKey decay u i := by
  unfold esKey specESKey
  rw [esGuardedWeight_eq_specRankWeight]

lemma esKeyedList_eq_spec (decay : ℚ) (u : ℕ → ℝ) (files : List String) :
    esKeyedList decay u files
      = files.enum.map (fun p => (specESKey decay u p.1, p.2)) := by
  unfold esKeyedList
  simp only [esKey_eq_specESKey]

/-- C2: with more files than requested, a positive decay factor selects by the
spec's weighted-sampling-without-replacement scheme (rank weights
exp(-i * decayFactor), keys u_i ** (1 / w_i), the maxCount largest keys win),
and a non-positive decay factor yields a sample without replacement of
exactly maxCount items. -/
theorem c2_selection_refines_spec_sampling (fileCfg : Option Cfg) (u : ℕ → ℝ)
    (pick : ℕ → ℕ) (files : List String) (max_images : ℕ)
    (hlen : max_images < files.length) :
    (0 < decayFromSettings fileCfg →
      weighted_random_selection fileCfg u pick files max_images
        = specESSelect (decayFromSettings fileCfg) u files max_images) ∧
    (decayFromSettings fileCfg ≤ 0 →
      weighted_random_selection fileCfg u pick files max_images
          = randomSample pick max_images files ∧
      (randomSample pick max_images files).length = max_images ∧
      (randomSample pick max_images files).Subperm files) := by
  constructor
  · intro hpos
    unfold weighted_random_selection
    rw [if_neg (not_le.mpr hlen), if_neg (not_le.mpr hpos)]
    unfold specESSelect
    rw [esKeyedList_eq_spec]
  · intro hnonpos
    refine ⟨?_, ?_, randomSample_subperm pick _ _⟩
    · unfold weighted_random_selection
      rw [if_neg (not_le.mpr hlen), if_pos hnonpos]
    · rw [randomSample_length]
      omega

/-- C2 witness: the theorem applied at a concrete three-file input with
maxCount 2. -/
theorem c2_selection_refines_spec_sampling_witness :
    (0 < decayFromSettings none →
      weighted_random_selection none (fun _ => 1/2) (fun _ => 0) [("a"), ("b"), ("c")] 2
        = specESSelect (decayFromSettings none) (fun _ => 1/2) [("a"), ("b"), ("c")] 2) ∧
    (decayFromSettings none ≤ 0 →
      weighted_random_selection none (fun _ => 1/2) (fun _ => 0) [("a"), ("b"), ("c")] 2
          = randomSample (fun _ => 0) 2 [("a"), ("b"), ("c")] ∧
      (randomSample (fun _ => 0) 2 [("a"), ("b"), ("c")]).length = 2 ∧
      (randomSample (fun _ => 0) 2 [("a"), ("b"), ("c")]).Subperm [("a"), ("b"), ("c")]) :=
  c2_selection_refines_spec_sampling none (fun _ => 1/2) (fun _ => 0)
    [("a"), ("b"), ("c")] 2 (by decide)

/-! ### C3: cache validity and the 03:00 boundary -/

/-- The claim's cutoff: the next 03:00 boundary strictly after time t (for a
creation time before 03:00 this is 03:00 of the same day). -/
def next3amBoundaryAfter (t : ℕ) : ℕ :=
  if t % secPerDay < 3 * 3600 then (t / secPerDay) * secPerDay + 3 * 3600
  else (t / secPerDay + 1) * secPerDay + 3 * 3600

/-- Validity as claim C3 states it: the wall clock has not crossed the next
03:00 boundary after the creation time, and the mtime is unchanged. -/
def claimCacheValid (info : CacheInfo) (now current_mtime : ℕ) : Bool :=
  decide (now < next3amBoundaryAfter info.created) && (current_mtime == info.dir_mtime)

/-- C3, counterexample.  An entry created at 02:59 of day one (97140 s) and
queried at 03:01 the same day (97260 s) with unchanged mtime: the code's
cutoff is 03:00 of the NEXT day, so _is_cache_valid returns true, while the
claim's next-03:00-boundary criterion says invalid. -/
theorem c3_cache_valid_counterexample :
    is_cache_valid (some ⟨97140, 5⟩) 97260 5 = true ∧
    claimCacheValid ⟨97140, 5⟩ 97260 5 = false := by
  decide

/-- Validity as the code actually decides it, stated from the amended claim's
words: the wall clock has not reached 03:00 of the day AFTER the entry's
creation date, and the current mtime equals the recorded one. -/
def amendedCacheValid (info : CacheInfo) (now current_mtime : ℕ) : Bool :=
  decide (now < (info.created / secPerDay + 1) * secPerDay + 3 * 3600) &&
    (current_mtime == info.dir_mtime)

/-- C3 (amended): a recorded cache entry is valid iff the wall clock has not
reached 03:00 of the day after the entry's creation date and the directory's
current mtime equals the recorded mtime; so an entry created at 02:59 is
still valid at 03:01 the same day, and expires at 03:00 the following day. -/
theorem c3_cache_validity_iff (info : CacheInfo) (now current_mtime : ℕ) :
    is_cache_valid (some info) now current_mtime
      = amendedCacheValid info now current_mtime := by
  have hm : is_cache_valid (some info) now current_mtime
      = (if next_day_3am info.created ≤ now then false
         else if current_mtime ≠ info.dir_mtime then false else true) := rfl
  rw [hm]
  unfold amendedCacheValid next_day_3am
  by_cases h1 : (info.created / secPerDay + 1) * secPerDay + 3 * 3600 ≤ now
  · rw [if_pos h1]
    simp [not_lt.mpr h1]
  · rw [if_neg h1]
    by_cases h2 : current_mtime = info.dir_mtime
    · simp [h2, not_le.mp h1]
    · simp [h2, not_le.mp h1]

/-! ### C4: mount failure leaves the device reference as it was -/

lemma unmountBaseDir_device (ok : Bool) (st : UsbState) :
    (unmountBaseDir ok st).device = st.device := by
  unfold unmountBaseDir
  by_cases h : ok <;> simp [h]

lemma unmountBaseDir_keywords (ok : Bool) (st : UsbState) :
    (unmountBaseDir ok st).keywords = st.keywords := by
  unfold unmountBaseDir
  by_cases h : ok <;> simp [h]

/-- When every listed candidate fails (mount command fails or the photoframe
directory does not appear), the candidate loop returns False and never writes
the device field. -/
lemma mountAttempts_all_fail (w : MountWorld) :
    ∀ (l : List (ℕ × StorageUnit)) (st : UsbState),
      (∀ p, p ∈ l → ¬(w.mountOk p.1 = true ∧ w.baseDirAfter p.1 = true)) →
      (mountAttempts w l st).1 = false ∧
      (mountAttempts w l st).2.device = st.device := by
  intro l
  induction l with
  | nil => intro st _; exact ⟨rfl, rfl⟩
  | cons p rest ih =>
    intro st hfail
    obtain ⟨i, cand⟩ := p
    have hp : ¬(w.mountOk i = true ∧ w.baseDirAfter i = true) :=
      hfail (i, cand) (List.mem_cons_self _ _)
    have hcond : (w.mountOk i && w.baseDirAfter i) = false := by
      cases hmo : w.mountOk i <;> cases hba : w.baseDirAfter i <;>
        simp_all
    rw [mountAttempts, hcond]
    simp only [Bool.false_eq_true, if_false]
    have := ih (unmountBaseDir (w.umountOk i) st)
      (fun q hq => hfail q (List.mem_cons_of_mem _ hq))
    exact ⟨this.1, this.2.trans (unmountBaseDir_device _ _)⟩

/-- C4, counterexample.  With zero candidates and an active device recorded
from an earlier successful mount, mountStorageDevice returns failure but the
active device reference is NOT cleared: it still holds the old device, where
the claim says it is left unset/cleared. -/
theorem c4_device_not_cleared_counterexample :
    (mountStorageDevice
        ⟨[], fun _ => false, fun _ => false, fun _ => false, [], []⟩
        ⟨some ⟨some ("/dev/sda1"), none, 0, some ("vfat"), true, none, 7, none⟩,
          emptyCache, []⟩).1 = false ∧
    (mountStorageDevice
        ⟨[], fun _ => false, fun _ => false, fun _ => false, [], []⟩
        ⟨some ⟨some ("/dev/sda1"), none, 0, some ("vfat"), true, none, 7, none⟩,
          emptyCache, []⟩).2.device ≠ none := by
  decide

/-- C4 (amended): if no mount candidate succeeds (including the
zero-candidate case), mountStorageDevice returns failure and does not set the
active device reference — it keeps its prior value, so in particular it stays
unset when it was unset — and the next state refresh with the base directory
still missing reports STATE_NO_IMAGES with the not-connected substate. -/
theorem c4_mount_failure_state (w : MountWorld) (st : UsbState) (baseUpdate : SvcState)
    (hfail : ∀ i, i < w.candidates.length →
      ¬(w.mountOk i = true ∧ w.baseDirAfter i = true)) :
    (mountStorageDevice w st).1 = false ∧
    (mountStorageDevice w st).2.device = st.device ∧
    (updateState w false baseUpdate st).1
      = (SvcState.noImages, some SUBSTATE_NOT_CONNECTED) := by
  have hall : ∀ p, p ∈ w.candidates.enum →
      ¬(w.mountOk p.1 = true ∧ w.baseDirAfter p.1 = true) :=
    fun p hp => hfail p.1 (List.fst_lt_of_mem_enum hp)
  obtain ⟨h1, h2⟩ := mountAttempts_all_fail w w.candidates.enum st hall
  have h1' : (mountStorageDevice w st).1 = false := h1
  refine ⟨h1', h2, ?_⟩
  unfold updateState
  simp [h1']

/-- C4 witness: the amended theorem applied to a world with zero candidates
and a previously unset device. -/
theorem c4_mount_failure_state_witness :
    (mountStorageDevice
        ⟨[], fun _ => false, fun _ => false, fun _ => false, [], []⟩
        ⟨none, emptyCache, []⟩).1 = false ∧
    (mountStorageDevice
        ⟨[], fun _ => false, fun _ => false, fun _ => false, [], []⟩
        ⟨none, emptyCache, []⟩).2.device = none ∧
    (updateState ⟨[], fun _ => false, fun _ => false, fun _ => false, [], []⟩
        false SvcState.other ⟨none, emptyCache, []⟩).1
      = (SvcState.noImages, some SUBSTATE_NOT_CONNECTED) :=
  c4_mount_failure_state
    ⟨[], fun _ => false, fun _ => false, fun _ => false, [], []⟩
    ⟨none, emptyCache, []⟩ SvcState.other
    (fun i hi => absurd hi (Nat.not_lt_zero i))

/-! ### C5: ALLALBUMS expansion in the returned keyword list -/

/-- The claim's expansion: the stored keywords with ALLALBUMS removed and the
current album names appended, each only if not already present. -/
def specExpandedKeywords (albums stored : List String) : List String :=
  stored.erase ("ALLALBUMS") ++
    albums.filter (fun a => a ∉ stored.erase ("ALLALBUMS"))

lemma not_mem_specExpandedKeywords (albums stored : List String)
    (hnd : stored.Nodup) (hnotalbum : ("ALLALBUMS") ∉ albums) :
    ("ALLALBUMS") ∉ specExpandedKeywords albums stored := by
  intro hc
  unfold specExpandedKeywords at hc
  rcases List.mem_append.mp hc with h | h
  · exact hnd.not_mem_erase h
  · exact hnotalbum (List.mem_filter.mp h).1

/-- C5: for a duplicate-free stored keyword list containing ALLALBUMS and
albums not literally named ALLALBUMS, getKeywords returns the stored keywords
with ALLALBUMS replaced by the album names (each appended only if not already
present; with the _PHOTOFRAME_ seed when that expansion is empty and the root
has direct images), and ALLALBUMS is not in the result. -/
theorem c5_allalbums_expansion (albums baseImages stored : List String)
    (hnd : stored.Nodup) (hmem : ("ALLALBUMS") ∈ stored)
    (hnotalbum : ("ALLALBUMS") ∉ albums) :
    (getKeywords true albums baseImages stored).1
      = (if specExpandedKeywords albums stored = [] && !baseImages.isEmpty
         then specExpandedKeywords albums stored ++ [("_PHOTOFRAME_")]
         else specExpandedKeywords albums stored) ∧
    ("ALLALBUMS") ∉ (getKeywords true albums baseImages stored).1 := by
  have hnm := not_mem_specExpandedKeywords albums stored hnd hnotalbum
  have h1 : (getKeywords true albums baseImages stored).1
      = (if specExpandedKeywords albums stored = [] && !baseImages.isEmpty
         then specExpandedKeywords albums stored ++ [("_PHOTOFRAME_")]
         else specExpandedKeywords albums stored) := by
    unfold getKeywords specExpandedKeywords
    simp only [Bool.not_true, Bool.false_eq_true, if_false, if_pos hmem]
    by_cases he : stored.erase ("ALLALBUMS") ++
        albums.filter (fun a => a ∉ stored.erase ("ALLALBUMS")) = []
    · rw [he]
      simp
    · have hb1 : (decide (stored.erase ("ALLALBUMS") ++
          albums.filter (fun a => a ∉ stored.erase ("ALLALBUMS")) = [])) = false :=
        decide_eq_false he
      simp only [hb1, Bool.false_and, Bool.and_false, if_false,
        Bool.false_eq_true]
  refine ⟨h1, ?_⟩
  rw [h1]
  by_cases hcond : (specExpandedKeywords albums stored = [] && !baseImages.isEmpty) = true
  · rw [if_pos hcond]
    intro hc
    rcases List.mem_append.mp hc with h | h
    · exact hnm h
    · simp at h
  · rw [if_neg hcond]
    exact hnm

/-- C5 witness: stored [ALLALBUMS] with albums [Trip, Family] yields exactly
[Trip, Family]. -/
theorem c5_allalbums_expansion_witness :
    (getKeywords true [("Trip"), ("Family")] [] [("ALLALBUMS")]).1
      = (if specExpandedKeywords [("Trip"), ("Family")] [("ALLALBUMS")] = []
            && !(([] : List String)).isEmpty
         then specExpandedKeywords [("Trip"), ("Family")] [("ALLALBUMS")] ++ [("_PHOTOFRAME_")]
         else specExpandedKeywords [("Trip"), ("Family")] [("ALLALBUMS")]) ∧
    ("ALLALBUMS") ∉ (getKeywords true [("Trip"), ("Family")] [] [("ALLALBUMS")]).1 :=
  c5_allalbums_expansion [("Trip"), ("Family")] [] [("ALLALBUMS")]
    (by decide) (by decide) (by decide)

/-! ### C7: the expansion is written back to the stored keywords -/

/-- C7, counterexample.  Stored keywords [ALLALBUMS] with current albums
[Trip]: after the getKeywords call the STORED keyword state is [Trip] — the
expanded album name has been persisted and the sentinel dropped, where the
claim says the expansion is never stored. -/
theorem c7_expansion_persisted_counterexample :
    (getKeywords true [("Trip")] [] [("ALLALBUMS")]).2 = [("Trip")] ∧
    (getKeywords true [("Trip")] [] [("ALLALBUMS")]).2 ≠ [("ALLALBUMS")] := by
  decide

/-- C7 (amended): getKeywords persists its expansion — whenever the content
root exists, the stored keyword state after the call equals the returned
(expanded) list, and only the early return on a missing content root leaves
the stored keywords untouched. -/
theorem c7_expansion_written_back (albums baseImages stored : List String) :
    (getKeywords true albums baseImages stored).2
      = (getKeywords true albums baseImages stored).1 ∧
    (getKeywords false albums baseImages stored).2 = stored :=
  ⟨rfl, rfl⟩

/-! ### C8: the _PHOTOFRAME_ seed for direct images -/

/-- C8: with zero stored keywords and at least one image directly in the
content root, getKeywords returns exactly [_PHOTOFRAME_]. -/
theorem c8_photoframe_seed (albums baseImages : List String) (himg : baseImages ≠ []) :
    (getKeywords true albums baseImages []).1 = [("_PHOTOFRAME_")] := by
  unfold getKeywords
  simp [himg]

/-- C8 witness: three direct images and no stored albums. -/
theorem c8_photoframe_seed_witness :
    (getKeywords true [] [("img1"), ("img2"), ("img3")] []).1 = [("_PHOTOFRAME_")] :=
  c8_photoframe_seed [] [("img1"), ("img2"), ("img3")] (by decide)

/-! ### C10: the post-mount keyword sweep removes ALLALBUMS -/

lemma mountAttempts_success_keywords (w : MountWorld) :
    ∀ (l : List (ℕ × StorageUnit)) (st st' : UsbState),
      mountAttempts w l st = (true, st') →
      st'.keywords = checkForInvalidKeywords w.albums w.baseImages st.keywords := by
  intro l
  induction l with
  | nil =>
    intro st st' h
    exact absurd (congrArg Prod.fst h) (by simp [mountAttempts])
  | cons p rest ih =>
    intro st st' h
    obtain ⟨i, cand⟩ := p
    rw [mountAttempts] at h
    by_cases hcond : (w.mountOk i && w.baseDirAfter i) = true
    · rw [if_pos hcond] at h
      have hsnd := congrArg Prod.snd h
      simp only at hsnd
      rw [← hsnd]
    · rw [if_neg hcond] at h
      have := ih _ _ h
      rwa [unmountBaseDir_keywords] at this

lemma not_mem_checkForInvalidKeywords_of_not_album (albums baseImages stored : List String)
    (h : ("ALLALBUMS") ∉ albums) :
    ("ALLALBUMS") ∉ checkForInvalidKeywords albums baseImages stored := by
  intro hc
  unfold checkForInvalidKeywords at hc
  have hp := (List.mem_filter.mp hc).2
  simp at hp
  exact h hp

/-- C10: the keyword sweep run by every successful mount special-cases only
_PHOTOFRAME_, so when no actual album is named ALLALBUMS, the keyword state
after a successful mountStorageDevice call no longer contains ALLALBUMS. -/
theorem c10_sweep_removes_allalbums (w : MountWorld) (st st' : UsbState)
    (hal : ("ALLALBUMS") ∉ w.albums)
    (hsucc : mountStorageDevice w st = (true, st')) :
    ("ALLALBUMS") ∉ st'.keywords := by
  have hsucc' : mountAttempts w w.candidates.enum st = (true, st') := hsucc
  rw [mountAttempts_success_keywords w w.candidates.enum st st' hsucc']
  exact not_mem_checkForInvalidKeywords_of_not_album _ _ _ hal

/-- C10 witness: one succeeding candidate, stored keywords
[ALLALBUMS, Trip], albums [Trip]: after the mount the sweep leaves [Trip]. -/
theorem c10_sweep_removes_allalbums_witness :
    ("ALLALBUMS") ∉ (UsbState.mk
        (some ⟨some ("/dev/sdb1"), none, 0, some ("vfat"), true, none, 9, none⟩)
        emptyCache [("Trip")]).keywords :=
  c10_sweep_removes_allalbums
    ⟨[⟨some ("/dev/sdb1"), none, 0, some ("vfat"), true, none, 9, none⟩],
      fun _ => true, fun _ => true, fun _ => true, [("Trip")], []⟩
    ⟨none, emptyCache, [("ALLALBUMS"), ("Trip")]⟩
    (UsbState.mk
        (some ⟨some ("/dev/sdb1"), none, 0, some ("vfat"), true, none, 9, none⟩)
        emptyCache [("Trip")])
    (by decide) (by decide)

/-! ### C6: scan caching and mtime invalidation -/

lemma scan_cache_hit (fs : FS) (t : ℕ) (c : ScanCache) (path : String) (d : DirState)
    (r : List (ℕ × String) × List (ℕ × String))
    (hfs : fs path = some d)
    (hv : is_cache_valid (c.stamps.lookup path) t d.mtime = true)
    (hl : c.dirCache.lookup path = some r) :
    cache_directory_scan fs t c path = (r, c, false) := by
  simp only [cache_directory_scan, hfs, hv, if_true, hl]

lemma scan_fresh (fs : FS) (t : ℕ) (c : ScanCache) (path : String) (d : DirState)
    (hfs : fs path = some d) (hread : d.readable = true)
    (hmiss : (if is_cache_valid (c.stamps.lookup path) t d.mtime
        then c.dirCache.lookup path else none) = none) :
    cache_directory_scan fs t c path
      = (freshScan d, setStamp c path ⟨t, d.mtime⟩ (freshScan d), true) := by
  simp only [cache_directory_scan, hfs, hmiss, hread, if_true]

lemma is_cache_valid_false_of_mtime_ne (info : CacheInfo) (t m : ℕ)
    (h : m ≠ info.dir_mtime) : is_cache_valid (some info) t m = false := by
  have hm : is_cache_valid (some info) t m
      = (if next_day_3am info.created ≤ t then false
         else if m ≠ info.dir_mtime then false else true) := rfl
  rw [hm]
  by_cases h3 : next_day_3am info.created ≤ t
  · rw [if_pos h3]
  · rw [if_neg h3, if_pos h]

/-- C6: with the directory unchanged on disk and the first call's cache entry
still valid at the second call's time, a second scan returns the first call's
exact file and subdirectory orderings, leaves the cache untouched and
performs no underlying filesystem read; and whenever the directory's current
mtime differs from the recorded one, the cached entry is discarded: the call
performs a fresh scan, reports an underlying read, and re-records the current
mtime. -/
theorem c6_scan_cached_and_mtime_invalidation (fs : FS) (path : String) (d : DirState)
    (c : ScanCache) (t1 t2 : ℕ)
    (hfs : fs path = some d) (hread : d.readable = true) :
    (is_cache_valid ((cache_directory_scan fs t1 c path).2.1.stamps.lookup path)
        t2 d.mtime = true →
      cache_directory_scan fs t2 (cache_directory_scan fs t1 c path).2.1 path
        = ((cache_directory_scan fs t1 c path).1,
           (cache_directory_scan fs t1 c path).2.1, false)) ∧
    (∀ info, c.stamps.lookup path = some info → d.mtime ≠ info.dir_mtime →
      (cache_directory_scan fs t1 c path).1 = freshScan d ∧
      (cache_directory_scan fs t1 c path).2.2 = true ∧
      (cache_directory_scan fs t1 c path).2.1.stamps.lookup path
        = some ⟨t1, d.mtime⟩) := by
  constructor
  · intro hvalid2
    by_cases hv1 : is_cache_valid (c.stamps.lookup path) t1 d.mtime = true
    · cases hl1 : c.dirCache.lookup path with
      | some r0 =>
        have hfirst := scan_cache_hit fs t1 c path d r0 hfs hv1 hl1
        rw [hfirst] at hvalid2 ⊢
        exact scan_cache_hit fs t2 c path d r0 hfs hvalid2 hl1
      | none =>
        have hfirst := scan_fresh fs t1 c path d hfs hread (by rw [if_pos hv1, hl1])
        rw [hfirst] at hvalid2 ⊢
        exact scan_cache_hit fs t2 _ path d _ hfs hvalid2
          (lookup_setStamp_dirCache c path ⟨t1, d.mtime⟩ (freshScan d))
    · have hfirst := scan_fresh fs t1 c path d hfs hread
        (by rw [if_neg hv1])
      rw [hfirst] at hvalid2 ⊢
      exact scan_cache_hit fs t2 _ path d _ hfs hvalid2
        (lookup_setStamp_dirCache c path ⟨t1, d.mtime⟩ (freshScan d))
  · intro info hinfo hne
    have hv1 : is_cache_valid (c.stamps.lookup path) t1 d.mtime = false := by
      rw [hinfo]
      exact is_cache_valid_false_of_mtime_ne info t1 d.mtime hne
    have hfirst := scan_fresh fs t1 c path d hfs hread
      (by rw [hv1]; simp)
    rw [hfirst]
    exact ⟨rfl, rfl, lookup_setStamp_stamps c path ⟨t1, d.mtime⟩ (freshScan d)⟩

/-- A concrete directory for the C6 witness: mtime 5, two visible files. -/
def demoDir : DirState :=
  ⟨5, [⟨("b.jpg"), EntryKind.file, 3⟩, ⟨("a.jpg"), EntryKind.file, 4⟩], true⟩

/-- A concrete filesystem with one directory at path pics. -/
def demoFS : FS := fun p => if p == ("pics") then some demoDir else none

/-- A cache whose recorded mtime 7 disagrees with demoDir's mtime 5. -/
def demoStaleCache : ScanCache := ⟨[], [(("pics"), ⟨0, 7⟩)]⟩

/-- C6 witness: the first call at time 0 populates the cache and a second
call at time 100 (before the 03:00 cutoff, mtime unchanged) returns the
identical result without a read; and on the stale cache whose recorded mtime
differs the call performs an underlying read. -/
theorem c6_scan_cached_and_mtime_invalidation_witness :
    cache_directory_scan demoFS 100
        (cache_directory_scan demoFS 0 emptyCache ("pics")).2.1 ("pics")
      = ((cache_directory_scan demoFS 0 emptyCache ("pics")).1,
         (cache_directory_scan demoFS 0 emptyCache ("pics")).2.1, false) ∧
    (cache_directory_scan demoFS 0 demoStaleCache ("pics")).2.2 = true := by
  constructor
  · exact (c6_scan_cached_and_mtime_invalidation demoFS ("pics") demoDir
      emptyCache 0 100 (by decide) (by decide)).1 (by decide)
  · exact ((c6_scan_cached_and_mtime_invalidation demoFS ("pics") demoDir
      demoStaleCache 0 100 (by decide) (by decide)).2 ⟨0, 7⟩ (by decide) (by decide)).2.1

/-! ### C9: decay-factor configuration fallback -/

lemma lookup_map_value (f : ConfigVal → ConfigVal) (k : String) :
    ∀ l : Cfg, (l.map (fun p => (p.1, f p.2))).lookup k = (l.lookup k).map f := by
  intro l
  induction l with
  | nil => rfl
  | cons p rest ih =>
    obtain ⟨a, v⟩ := p
    simp only [List.map_cons]
    rw [List.lookup_cons, List.lookup_cons]
    cases hka : k == a
    · exact ih
    · rfl

lemma lookup_append_right_ne (k k' : String) (v : ConfigVal) (h : k ≠ k') :
    ∀ l : Cfg, (l ++ [(k', v)]).lookup k = l.lookup k := by
  intro l
  induction l with
  | nil =>
    rw [List.nil_append, List.lookup_cons, beq_false_of_ne h]
  | cons p rest ih =>
    obtain ⟨a, b⟩ := p
    rw [List.cons_append, List.lookup_cons, List.lookup_cons]
    cases hka : k == a
    · exact ih
    · rfl

lemma lookup_setA_ne (l : Cfg) (k k' : String) (v : ConfigVal) (h : k ≠ k') :
    (setA l k' v).lookup k = l.lookup k := by
  unfold setA
  by_cases hany : (l.any (fun p => p.1 == k')) = true
  · rw [if_pos hany]
    clear hany
    induction l with
    | nil => rfl
    | cons p rest ih =>
      obtain ⟨a, b⟩ := p
      simp only [List.map_cons]
      by_cases ha : (a == k') = true
      · have ha' : a = k' := by simpa using ha
        subst ha'
        rw [if_pos ha, List.lookup_cons, List.lookup_cons, beq_false_of_ne h]
        exact ih
      · rw [if_neg ha, List.lookup_cons, List.lookup_cons]
        cases hka : k == a
        · exact ih
        · rfl
  · rw [if_neg hany]
    exact lookup_append_right_ne k k' v h l

lemma lookup_removeA_ne (l : Cfg) (k k' : String) (h : k ≠ k') :
    (removeA l k').lookup k = l.lookup k := by
  unfold removeA
  induction l with
  | nil => rfl
  | cons p rest ih =>
    obtain ⟨a, b⟩ := p
    simp only [List.filter_cons]
    by_cases ha : (a != k') = true
    · rw [if_pos ha, List.lookup_cons, List.lookup_cons]
      cases hka : k == a
      · exact ih
      · rfl
    · have ha' : a = k' := by simpa using ha
      subst ha'
      rw [if_neg ha, List.lookup_cons, beq_false_of_ne h]
      exact ih

lemma lookup_mergeUpdate_of_unset (k : String) :
    ∀ (fc base : Cfg), fc.lookup k = none →
      (mergeUpdate base fc).lookup k = base.lookup k := by
  intro fc
  induction fc with
  | nil => intro base _; rfl
  | cons p rest ih =>
    intro base h
    obtain ⟨a, v⟩ := p
    by_cases hb : (k == a) = true
    · exfalso
      simp [List.lookup, hb] at h
    · simp only [List.lookup, hb] at h
      unfold mergeUpdate
      simp only [List.foldl_cons]
      have hrec := ih (setA base a v) h
      unfold mergeUpdate at hrec
      rw [hrec, lookup_setA_ne base k a v (by simpa using hb)]

/-- A settings file that does not set decay_factor leaves the built-in
default 0.003 in place after load. -/
lemma lookup_loadCfg_decay_of_unset (fc : Cfg)
    (h : fc.lookup ("decay_factor") = none) :
    (loadCfg (some fc)).lookup ("decay_factor") = some (ConfigVal.num (3/1000)) := by
  have h1 : (mergeUpdate userDefaults fc).lookup ("decay_factor")
      = userDefaults.lookup ("decay_factor") :=
    lookup_mergeUpdate_of_unset ("decay_factor") fc userDefaults h
  have h2 : userDefaults.lookup ("decay_factor") = some (ConfigVal.num (3/1000)) := rfl
  unfold loadCfg
  cases hrc : (mergeUpdate userDefaults fc).lookup ("refresh-content") with
  | none =>
    simp only [hrc]
    rw [lookup_map_value, lookup_removeA_ne _ _ _ (by decide), h1, h2]
    rfl
  | some rv =>
    simp only [hrc]
    rw [lookup_map_value, lookup_removeA_ne _ _ _ (by decide),
      lookup_setA_ne _ _ _ _ (by decide), lookup_removeA_ne _ _ _ (by decide), h1, h2]
    rfl

/-- C9: the decay factor is recomputed from the passed-in settings on each
selection call, and every unreadable configuration degrades to a fixed
constant instead of an exception: with no settings file, or a file that does
not set decay_factor, the built-in default 0.003 is used; a non-numeric
string value falls back to 0.0005, as do a stored JSON null and a missing
user key (both of which getUser reports as None). -/
theorem c9_decay_factor_fallback (fileCfg : Option Cfg) :
    (fileCfg = none → decayFromSettings fileCfg = 3/1000) ∧
    (∀ fc, fileCfg = some fc → fc.lookup ("decay_factor") = none →
      decayFromSettings fileCfg = 3/1000) ∧
    (∀ s, getUser (loadCfg fileCfg) ("decay_factor") = some (ConfigVal.str s) →
      pyParseFloat s = none → decayFromSettings fileCfg = 1/2000) ∧
    (getUser (loadCfg fileCfg) ("decay_factor") = some ConfigVal.null →
      decayFromSettings fileCfg = 1/2000) ∧
    (getUser (loadCfg fileCfg) ("decay_factor") = none →
      decayFromSettings fileCfg = 1/2000) := by
  refine ⟨?_, ?_, ?_, ?_, ?_⟩
  · rintro rfl
    rfl
  · rintro fc rfl hunset
    unfold decayFromSettings getUser
    rw [lookup_loadCfg_decay_of_unset fc hunset]
    rfl
  · intro s hs hparse
    unfold decayFromSettings
    rw [hs]
    unfold decayFactorOf pyFloat
    simp only [hparse]
  · intro hs
    unfold decayFromSettings
    rw [hs]
    rfl
  · intro hs
    unfold decayFromSettings
    rw [hs]
    rfl

/-- C9 witness: a file not setting decay_factor yields the default 0.003, and
a non-numeric string yields 0.0005. -/
theorem c9_decay_factor_fallback_witness :
    decayFromSettings (some [(("width"), ConfigVal.num 42)]) = 3/1000 ∧
    decayFromSettings (some [(("decay_factor"), ConfigVal.str ("not-a-number"))])
      = 1/2000 := by
  constructor
  · exact (c9_decay_factor_fallback (some [(("width"), ConfigVal.num 42)])).2.1
      [(("width"), ConfigVal.num 42)] rfl (by decide)
  · exact (c9_decay_factor_fallback
      (some [(("decay_factor"), ConfigVal.str ("not-a-number"))])).2.2.1
      ("not-a-number") (by decide) (by decide)

end Photoframe
